import Mathlib

set_option linter.unusedVariables false
set_option maxRecDepth 4000

/-!
Verification of the MCP client agent (src/py-client/client.py).

The Python program is a thin agent loop around two external
collaborators: an LLM chat endpoint and an MCP tool-provider
subprocess.  We embed the original logic as executable Lean
definitions: the JSON values moved around by the loop, the
per-turn tool execution, the while-loop of process_user_query,
the session initialisation that fetches the tool catalog, and the
interactive input handling of run_interactive_session.  External
collaborators (the LLM endpoint, the tool provider, Python json)
are modelled as explicit function parameters or small faithful
models, and the scripted LLM responses are a list consumed one
response per loop iteration.
-/

/-- JSON values, modelling the values handled by the Python json module
in this program (floating point numbers omitted; no claim involves
them). -/
inductive Json where
  | null : Json
  | bool : Bool → Json
  | num : Int → Json
  | str : String → Json
  | arr : List Json → Json
  | obj : List (String × Json) → Json

/-- Escape one character as json.dumps does for the characters this
program can produce. -/
def jsonEscapeChar (c : Char) : String :=
  if c = '"' then "\\\""
  else if c = '\\' then "\\\\"
  else if c = '\n' then "\\n"
  else if c = '\t' then "\\t"
  else if c = '\r' then "\\r"
  else String.singleton c

/-- Escape a string body as json.dumps does. -/
def jsonEscape (s : String) : String :=
  String.join (s.data.map jsonEscapeChar)

mutual

/-- Model of Python json.dumps with its default separators: a comma and
a space between items, a colon and a space after each key. -/
def Json.dumps : Json → String
  | Json.null => "null"
  | Json.bool true => "true"
  | Json.bool false => "false"
  | Json.num n => toString n
  | Json.str s => "\"" ++ jsonEscape s ++ "\""
  | Json.arr xs => "[" ++ String.intercalate ", " (dumpsElems xs) ++ "]"
  | Json.obj fs => "\x7b" ++ String.intercalate ", " (dumpsPairs fs) ++ "\x7d"

/-- dumps of the elements of a JSON array, in order. -/
def dumpsElems : List Json → List String
  | [] => []
  | x :: xs => Json.dumps x :: dumpsElems xs

/-- dumps of the key-value pairs of a JSON object, in order. -/
def dumpsPairs : List (String × Json) → List String
  | [] => []
  | (k, v) :: fs => ("\"" ++ jsonEscape k ++ "\": " ++ Json.dumps v) :: dumpsPairs fs

end

/-- Whitespace characters recognised by the JSON grammar. -/
def isJsonWs (c : Char) : Bool :=
  c = ' ' || c = '\n' || c = '\t' || c = '\r'

/-- Drop leading JSON whitespace. -/
def skipWs : List Char → List Char
  | [] => []
  | c :: cs => if isJsonWs c then skipWs cs else c :: cs

/-- Parse the body of a JSON string after the opening quote, returning
the decoded string and the remaining input. -/
def parseStringBody : List Char → Option (String × List Char)
  | [] => none
  | c :: cs =>
    if c = '"' then some ("", cs)
    else if c = '\\' then
      match cs with
      | [] => none
      | e :: cs2 =>
        let ec : Char :=
          if e = 'n' then '\n' else if e = 't' then '\t'
          else if e = 'r' then '\r' else e
        match parseStringBody cs2 with
        | some (s, rest) => some (⟨ec :: s.data⟩, rest)
        | none => none
    else
      match parseStringBody cs with
      | some (s, rest) => some (⟨c :: s.data⟩, rest)
      | none => none

/-- Take a maximal run of decimal digits. -/
def takeDigits : List Char → List Char × List Char
  | [] => ([], [])
  | c :: cs =>
    if c.isDigit then
      match takeDigits cs with
      | (ds, rest) => (c :: ds, rest)
    else ([], c :: cs)

/-- Decimal value of a digit run. -/
def digitsToNat (ds : List Char) : Nat :=
  ds.foldl (fun acc c => acc * 10 + (c.toNat - 48)) 0

mutual

/-- Recursive-descent JSON parser, a model of Python json.loads on the
fragment the program exchanges: strings, integers, booleans, null,
arrays and objects.  The fuel argument bounds the recursion depth and
is chosen large enough for the whole input in json_loads below. -/
def parseValue : Nat → List Char → Option (Json × List Char)
  | 0, _ => none
  | fuel + 1, cs =>
    match skipWs cs with
    | [] => none
    | '"' :: rest =>
      match parseStringBody rest with
      | some (s, r) => some (Json.str s, r)
      | none => none
    | '\x7b' :: rest =>
      match skipWs rest with
      | '\x7d' :: r => some (Json.obj [], r)
      | other =>
        match parseMembers fuel other with
        | some (fs, r) => some (Json.obj fs, r)
        | none => none
    | '[' :: rest =>
      match skipWs rest with
      | ']' :: r => some (Json.arr [], r)
      | other =>
        match parseElems fuel other with
        | some (xs, r) => some (Json.arr xs, r)
        | none => none
    | 't' :: 'r' :: 'u' :: 'e' :: r => some (Json.bool true, r)
    | 'f' :: 'a' :: 'l' :: 's' :: 'e' :: r => some (Json.bool false, r)
    | 'n' :: 'u' :: 'l' :: 'l' :: r => some (Json.null, r)
    | c :: rest =>
      if c = '-' then
        match takeDigits rest with
        | ([], _) => none
        | (ds, r) => some (Json.num (-(digitsToNat ds : Int)), r)
      else if c.isDigit then
        match takeDigits (c :: rest) with
        | (ds, r) => some (Json.num (digitsToNat ds), r)
      else none

/-- Parse the members of a JSON object after the opening brace, up to
and including the closing brace. -/
def parseMembers : Nat → List Char → Option (List (String × Json) × List Char)
  | 0, _ => none
  | fuel + 1, cs =>
    match skipWs cs with
    | '"' :: rest =>
      match parseStringBody rest with
      | none => none
      | some (k, r1) =>
        match skipWs r1 with
        | ':' :: r2 =>
          match parseValue fuel r2 with
          | none => none
          | some (v, r3) =>
            match skipWs r3 with
            | ',' :: r4 =>
              match parseMembers fuel r4 with
              | some (fs, r5) => some ((k, v) :: fs, r5)
              | none => none
            | '\x7d' :: r4 => some ([(k, v)], r4)
            | _ => none
        | _ => none
    | _ => none

/-- Parse the elements of a JSON array after the opening bracket, up to
and including the closing bracket. -/
def parseElems : Nat → List Char → Option (List Json × List Char)
  | 0, _ => none
  | fuel + 1, cs =>
    match parseValue fuel cs with
    | none => none
    | some (v, r1) =>
      match skipWs r1 with
      | ',' :: r2 =>
        match parseElems fuel r2 with
        | some (xs, r3) => some (v :: xs, r3)
        | none => none
      | ']' :: r2 => some ([v], r2)
      | _ => none

end

/-- Model of Python json.loads: parse one JSON document and require
that nothing but whitespace follows it; malformed input yields none
(the ArgumentParseError path of the spec). -/
def json_loads (s : String) : Option Json :=
  match parseValue (s.length + 1) s.data with
  | some (v, rest) => if (skipWs rest).isEmpty then some v else none
  | none => none

/-- The function field of a tool call coming back from the chat
endpoint: the tool name and the arguments as JSON text (the endpoint
delivers arguments as a string to be parsed with json.loads). -/
structure ToolCallFunction where
  name : String
  arguments : String
deriving DecidableEq

/-- One tool-call request from the LLM: an opaque id and the function
field. -/
structure ToolCall where
  id : String
  function : ToolCallFunction
deriving DecidableEq

/-- One message returned by the chat completion endpoint
(completion.choices[0].message): optional text content and the list of
tool calls (the Python attribute is None or a list; the empty list
plays the role of None, both being falsy in the truthiness test the
code performs). -/
structure ResponseMessage where
  content : Option String
  tool_calls : List ToolCall
deriving DecidableEq

/-- One entry of the aggregated tool-result record the client builds
for each executed call: the originating call id, the function name,
and the JSON-serialised result content. -/
structure ToolResultEntry where
  tool_call_id : String
  functionName : String
  content : String
deriving DecidableEq

/-- A transcript message.  system and user messages are plain dicts
with a content string; an assistant entry is the LLM response object
appended verbatim; toolMsg is the single dict with role tool that the
client appends once per tool turn, holding the list of result entries
under its tool_calls key. -/
inductive HistMsg where
  | system : String → HistMsg
  | user : String → HistMsg
  | assistant : ResponseMessage → HistMsg
  | toolMsg : List ToolResultEntry → HistMsg
deriving DecidableEq

/-- Result of session.call_tool: either an MCP Message envelope, from
which the client extracts the data field, or a plain value used
as-is. -/
inductive ToolOutput where
  | message : Json → ToolOutput
  | plain : Json → ToolOutput

/-- The unwrap step of the client: extract the data of an MCP Message
envelope, otherwise keep the value. -/
def unwrapToolOutput : ToolOutput → Json
  | ToolOutput.message d => d
  | ToolOutput.plain v => v

/-- The tool provider channel: session.call_tool receives the tool
name and the parsed argument object expanded to keyword arguments,
and either returns an output or raises (modelled as error). -/
abbrev CallTool := String → List (String × Json) → Except String ToolOutput

/-- Observable events of one query, in order of occurrence: an LLM
request, the start of a tool invocation (its position in the turn and
its call id), the receipt of that result from the provider, and the
two history appends performed at the end of a tool turn. -/
inductive AgentEvent where
  | llmCall : AgentEvent
  | toolStart : Nat → String → AgentEvent
  | toolResult : Nat → String → AgentEvent
  | appendAssistant : AgentEvent
  | appendToolResults : AgentEvent
deriving DecidableEq

/-- The for-loop over response_message.tool_calls in
process_user_query, executing the calls strictly in request order:
for each call, parse its arguments with json.loads (failure raises,
the ArgumentParseError of the spec; a non-object value would make the
keyword expansion of call_tool fail, modelled as a TypeError), invoke
call_tool and await its result, unwrap the output, and collect one
result entry per call carrying the JSON-serialised result.  Returns
the events that occurred together with either the collected entries
or the first exception. -/
def execToolCalls (call_tool : CallTool) (k : Nat) :
    List ToolCall → List AgentEvent × Except String (List ToolResultEntry)
  | [] => ([], Except.ok [])
  | tc :: rest =>
    match json_loads tc.function.arguments with
    | none => ([], Except.error "ArgumentParseError")
    | some (Json.obj fields) =>
      match call_tool tc.function.name fields with
      | Except.error e => ([AgentEvent.toolStart k tc.id], Except.error e)
      | Except.ok out =>
        match execToolCalls call_tool (k + 1) rest with
        | (evs, Except.error e) =>
          (AgentEvent.toolStart k tc.id :: AgentEvent.toolResult k tc.id :: evs,
           Except.error e)
        | (evs, Except.ok entries) =>
          (AgentEvent.toolStart k tc.id :: AgentEvent.toolResult k tc.id :: evs,
           Except.ok (⟨tc.id, tc.function.name, (unwrapToolOutput out).dumps⟩ :: entries))
    | some _ => ([], Except.error "TypeError")

/-- Outcome of one process_user_query call.  ok is normal completion;
err means an exception was caught by the handler, which pops the last
history entry; outOfScript is a model artefact marking that the
scripted LLM had no further response, a case no claim exercises. -/
inductive QueryOutcome where
  | ok : QueryOutcome
  | err : String → QueryOutcome
  | outOfScript : QueryOutcome
deriving DecidableEq

/-- Result of one process_user_query call: the new history, the lines
printed to the console (only the error print and the final-answer
print are modelled, without emoji glyphs; the progress prints carry no
state), the Python return value (the Python function has no return
statement, so every path returns None, embedded as none), the outcome,
the event trace, and the tools list sent with each LLM request. -/
structure RunResult where
  history : List HistMsg
  printed : List String
  retVal : Option String
  outcome : QueryOutcome
  events : List AgentEvent
  sentCatalogs : List (List String)

/-- The while-True loop of process_user_query.  The LLM endpoint is
modelled as a script: the list of responses, or request failures, that
successive chat.completions.create calls produce.  tools is the cached
self.tool_definitions, recorded at every request.  Any exception - a
failed LLM request, malformed tool arguments, or a failed tool call -
is caught as in the Python code: the error is printed and the last
history entry is popped. -/
def agentLoop (call_tool : CallTool) (tools : List String) :
    List (Except String ResponseMessage) → List HistMsg → List String →
    List AgentEvent → List (List String) → RunResult
  | [], hist, printed, evs, cats =>
    ⟨hist, printed, none, QueryOutcome.outOfScript, evs, cats⟩
  | Except.error e :: _rest, hist, printed, evs, cats =>
    ⟨hist.dropLast, printed ++ ["\n[ERROR] An error occurred: " ++ e], none,
     QueryOutcome.err e, evs ++ [AgentEvent.llmCall], cats ++ [tools]⟩
  | Except.ok rm :: rest, hist, printed, evs, cats =>
    if rm.tool_calls.isEmpty then
      ⟨hist ++ [HistMsg.assistant rm],
       printed ++ ["\n[AGENT] Final Answer:\n" ++ rm.content.getD "None"],
       none, QueryOutcome.ok,
       evs ++ [AgentEvent.llmCall, AgentEvent.appendAssistant], cats ++ [tools]⟩
    else
      match execToolCalls call_tool 0 rm.tool_calls with
      | (tevs, Except.error e) =>
        ⟨hist.dropLast, printed ++ ["\n[ERROR] An error occurred: " ++ e], none,
         QueryOutcome.err e, evs ++ [AgentEvent.llmCall] ++ tevs, cats ++ [tools]⟩
      | (tevs, Except.ok entries) =>
        agentLoop call_tool tools rest
          (hist ++ [HistMsg.assistant rm, HistMsg.toolMsg entries])
          printed
          (evs ++ [AgentEvent.llmCall] ++ tevs ++
            [AgentEvent.appendAssistant, AgentEvent.appendToolResults])
          (cats ++ [tools])

/-- process_user_query: append the user query to the history, then run
the loop; the exception handler pop is performed inside agentLoop at
the point the exception is caught, matching the single try block that
wraps the whole Python loop. -/
def process_user_query (call_tool : CallTool) (tools : List String)
    (script : List (Except String ResponseMessage)) (hist : List HistMsg)
    (query : String) : RunResult :=
  agentLoop call_tool tools script (hist ++ [HistMsg.user query]) [] [] []

/-- One tool as reported by the MCP server, by its JSON schema text
(tool.json_schema in the code). -/
structure MCPTool where
  json_schema : String
deriving DecidableEq

/-- The MCP client session: the server-side tool list and a counter of
how many times session.tools has been invoked. -/
structure MCPSession where
  serverTools : List MCPTool
  toolsCalls : Nat
deriving DecidableEq

/-- session.tools: return the tool list and count the invocation. -/
def sessionTools (s : MCPSession) : List MCPTool × MCPSession :=
  (s.serverTools, { s with toolsCalls := s.toolsCalls + 1 })

/-- The mutable agent state: the connected session, the cached
self.tool_definitions, and the conversation history. -/
structure AgentState where
  session : MCPSession
  tool_definitions : List String
  history : List HistMsg
deriving DecidableEq

/-- The fixed system instruction appended at the end of
initialisation. -/
def system_prompt : String :=
  "You are an expert AI agent designed to answer user questions about Elastic Integration " ++
  "documentation. Use the provided tools exclusively to fetch information. " ++
  "Do not guess. Only use the tools when necessary. If a tool call is needed, " ++
  "only output the tool call and do not add any conversational text."

/-- The initialisation step of MCPClientAgent after the stdio
connection is established: fetch the tool definitions once via
session.tools and seed the history with the single system message. -/
def initAgent (s0 : MCPSession) : AgentState :=
  match sessionTools s0 with
  | (ts, s1) => ⟨s1, ts.map (fun t => t.json_schema), [HistMsg.system system_prompt]⟩

/-- process_user_query acting on the agent state: the loop reads the
cached tool_definitions and writes only the history; the session and
its fetch counter are untouched. -/
def processQueryState (call_tool : CallTool)
    (script : List (Except String ResponseMessage)) (st : AgentState)
    (query : String) : AgentState × RunResult :=
  match process_user_query call_tool st.tool_definitions script st.history query with
  | r => ({ st with history := r.history }, r)

/-- Run a whole session: one processQueryState per query (each query
paired with the LLM script it provokes), collecting the tools lists
sent to the LLM across all queries. -/
def runQueries (call_tool : CallTool) :
    AgentState → List (List (Except String ResponseMessage) × String) →
    AgentState × List (List String)
  | st, [] => (st, [])
  | st, (script, q) :: qs =>
    match processQueryState call_tool script st q with
    | (st1, r) =>
      match runQueries call_tool st1 qs with
      | (st2, cats) => (st2, r.sentCatalogs ++ cats)

/-- The action run_interactive_session takes for one input line. -/
inductive InputAction where
  | exitSession : InputAction
  | dispatch : String → InputAction
  | ignore : InputAction
deriving DecidableEq

/-- Model of Python str.lower on one character (ASCII letters; the
input lines of the claims are ASCII). -/
def pyLowerChar (c : Char) : Char :=
  if 'A' ≤ c ∧ c ≤ 'Z' then Char.ofNat (c.toNat + 32) else c

/-- Model of Python str.lower. -/
def pyLower (s : String) : String :=
  ⟨s.data.map pyLowerChar⟩

/-- Whitespace characters stripped by Python str.strip with no
argument. -/
def isPySpace (c : Char) : Bool :=
  c = ' ' || c = '\t' || c = '\n' || c = '\r' || c = '\x0b' || c = '\x0c'

/-- Model of Python str.strip with no argument: drop whitespace from
both ends. -/
def pyStrip (s : String) : String :=
  ⟨((s.data.dropWhile isPySpace).reverse.dropWhile isPySpace).reverse⟩

/-- One step of the input loop of run_interactive_session: a line
whose lowercasing is exactly exit or quit ends the session (the
comparison is made on the unstripped line); otherwise a line whose
stripped form is non-empty is dispatched, stripped, as a query;
otherwise the line is silently ignored. -/
def handle_input_line (line : String) : InputAction :=
  if pyLower line = "exit" ∨ pyLower line = "quit" then InputAction.exitSession
  else if pyStrip line ≠ "" then InputAction.dispatch (pyStrip line)
  else InputAction.ignore

/-- The strictly alternating event pattern of a sequential turn: for
each call, in request order, a start immediately followed by the
receipt of its result, with no interleaving. -/
def seqEvents (k : Nat) : List ToolCall → List AgentEvent
  | [] => []
  | tc :: rest =>
    AgentEvent.toolStart k tc.id :: AgentEvent.toolResult k tc.id :: seqEvents (k + 1) rest

/-- The correspondence between a tool-call request and the result
entry recorded for it: same id, same function name, and the content is
the JSON serialisation of the unwrapped provider output for the parsed
arguments. -/
def EntryMatches (call_tool : CallTool) (tc : ToolCall) (e : ToolResultEntry) : Prop :=
  e.tool_call_id = tc.id ∧ e.functionName = tc.function.name ∧
  ∃ fields out, json_loads tc.function.arguments = some (Json.obj fields) ∧
    call_tool tc.function.name fields = Except.ok out ∧
    e.content = (unwrapToolOutput out).dumps

/-- Number of tool-role messages in a history. -/
def countToolRoleMsgs (hist : List HistMsg) : Nat :=
  hist.countP (fun m => match m with | HistMsg.toolMsg _ => true | _ => false)

/-- The single tool call of the C5 scenario. -/
def searchDocsCall : ToolCall :=
  ⟨"call_1", ⟨"search_docs", "\x7b\"query\": \"X\"\x7d"⟩⟩

/-- LLM response requesting the single scenario tool call. -/
def respToolTurn : ResponseMessage := ⟨none, [searchDocsCall]⟩

/-- Final plain-text LLM response of the scenarios. -/
def respFinal : ResponseMessage := ⟨some "X is ...", []⟩

/-- Tool provider for the scenarios: search_docs returns the MCP
Message envelope around the object binding result to doc text. -/
def scenarioProvider : CallTool := fun name _args =>
  if name = "search_docs" then
    Except.ok (ToolOutput.message (Json.obj [("result", Json.str "doc text")]))
  else Except.error "ToolExecutionError"

/-- LLM script of the C5 scenario: one tool turn, then the final
answer. -/
def scenarioScript : List (Except String ResponseMessage) :=
  [Except.ok respToolTurn, Except.ok respFinal]

/-- The full C5 scenario run, starting from the freshly initialised
history holding only the system message. -/
def scenarioRun : RunResult :=
  process_user_query scenarioProvider ["search_docs_schema"] scenarioScript
    [HistMsg.system system_prompt] "What is integration X?"

/-- First of two tool calls in one turn. -/
def twoCallA : ToolCall := ⟨"id_a", ⟨"search_docs", "\x7b\"query\": \"A\"\x7d"⟩⟩

/-- Second of two tool calls in one turn. -/
def twoCallB : ToolCall := ⟨"id_b", ⟨"search_docs", "\x7b\"query\": \"B\"\x7d"⟩⟩

/-- LLM response carrying two tool-call requests in one turn. -/
def respTwoCalls : ResponseMessage := ⟨none, [twoCallA, twoCallB]⟩

/-- Run with a two-call turn followed by the final answer. -/
def twoCallRun : RunResult :=
  process_user_query scenarioProvider ["search_docs_schema"]
    [Except.ok respTwoCalls, Except.ok respFinal]
    [HistMsg.system system_prompt] "Compare A and B"

/-- Run in which the first tool turn succeeds and the second LLM
request raises. -/
def failAfterTurnRun : RunResult :=
  process_user_query scenarioProvider ["search_docs_schema"]
    [Except.ok respToolTurn, Except.error "LLMRequestError"]
    [HistMsg.system system_prompt] "What is integration X?"

/-- A tool call whose arguments are not valid JSON. -/
def badArgsCall : ToolCall := ⟨"call_bad", ⟨"search_docs", "\x7bnot json"⟩⟩

/-- LLM response requesting the malformed-arguments call. -/
def respBadArgs : ResponseMessage := ⟨none, [badArgsCall]⟩

/-- Run in which the very first tool call of the first query has
malformed arguments. -/
def badFirstTurnRun : RunResult :=
  process_user_query scenarioProvider ["search_docs_schema"]
    [Except.ok respBadArgs] [HistMsg.system system_prompt] "q1"

/-- Run in which a successful tool turn is followed by a turn whose
tool call has malformed arguments. -/
def badSecondTurnRun : RunResult :=
  process_user_query scenarioProvider ["search_docs_schema"]
    [Except.ok respToolTurn, Except.ok respBadArgs]
    [HistMsg.system system_prompt] "q1"

/-- Predicate picking the start event of the call at position k of a
turn. -/
def isToolStartAt (k : Nat) (e : AgentEvent) : Bool :=
  match e with
  | AgentEvent.toolStart j _ => j == k
  | _ => false

/-- Predicate picking the transcript append of the tool results. -/
def isAppendToolResults (e : AgentEvent) : Bool :=
  match e with
  | AgentEvent.appendToolResults => true
  | _ => false

/-- The result entries collected for the two-call turn. -/
def twoCallEntries : List ToolResultEntry :=
  [⟨"id_a", "search_docs", "\x7b\"result\": \"doc text\"\x7d"⟩,
   ⟨"id_b", "search_docs", "\x7b\"result\": \"doc text\"\x7d"⟩]

/-- The events of the two-call turn. -/
def twoCallEvents : List AgentEvent :=
  [AgentEvent.toolStart 0 "id_a", AgentEvent.toolResult 0 "id_a",
   AgentEvent.toolStart 1 "id_b", AgentEvent.toolResult 1 "id_b"]

/-- In a successful tool turn, the collected result entries correspond
one-to-one, in order, to the requests, and the event trace is the
strictly alternating start/result sequence. -/
theorem execToolCalls_ok_spec (call_tool : CallTool) :
    ∀ (tcs : List ToolCall) (k : Nat) (tevs : List AgentEvent)
      (entries : List ToolResultEntry),
      execToolCalls call_tool k tcs = (tevs, Except.ok entries) →
      List.Forall₂ (EntryMatches call_tool) tcs entries ∧ tevs = seqEvents k tcs := by
  intro tcs
  induction tcs with
  | nil =>
    intro k tevs entries h
    simp only [execToolCalls, Prod.mk.injEq, Except.ok.injEq] at h
    obtain ⟨h1, h2⟩ := h
    subst h1
    subst h2
    exact ⟨List.Forall₂.nil, rfl⟩
  | cons tc rest ih =>
    intro k tevs entries h
    simp only [execToolCalls] at h
    split at h
    · simp at h
    · rename_i fields hl
      split at h
      · simp at h
      · rename_i out hc
        split at h
        · simp at h
        · rename_i evs entries2 hrec
          simp only [Prod.mk.injEq, Except.ok.injEq] at h
          obtain ⟨h1, h2⟩ := h
          subst h1
          subst h2
          obtain ⟨hf, he⟩ := ih (k + 1) evs entries2 hrec
          refine ⟨List.Forall₂.cons ⟨rfl, rfl, fields, out, hl, hc, rfl⟩ hf, ?_⟩
          simp [seqEvents, he]
    · simp at h

/-- The pointwise correspondence of a tool turn yields the identity
map equality: entry ids equal request ids, in order. -/
theorem forall2_map_ids (call_tool : CallTool) :
    ∀ (tcs : List ToolCall) (entries : List ToolResultEntry),
      List.Forall₂ (EntryMatches call_tool) tcs entries →
      entries.map (fun e => e.tool_call_id) = tcs.map (fun tc => tc.id) := by
  intro tcs entries h
  induction h with
  | nil => rfl
  | cons h1 _ ih => simp [ih, h1.1]

/-- Unfolding of one successful tool turn of the loop: the assistant
tool-call message and then the single aggregated tool-role message are
appended, the turn events are recorded, the tools list is recorded,
and the loop continues with the rest of the script. -/
theorem agentLoop_tool_step (call_tool : CallTool) (tools : List String)
    (rm : ResponseMessage) (rest : List (Except String ResponseMessage))
    (hist : List HistMsg) (printed : List String) (evs : List AgentEvent)
    (cats : List (List String)) (tevs : List AgentEvent)
    (entries : List ToolResultEntry)
    (hnz : rm.tool_calls ≠ [])
    (hexec : execToolCalls call_tool 0 rm.tool_calls = (tevs, Except.ok entries)) :
    agentLoop call_tool tools (Except.ok rm :: rest) hist printed evs cats =
      agentLoop call_tool tools rest
        (hist ++ [HistMsg.assistant rm, HistMsg.toolMsg entries]) printed
        (evs ++ [AgentEvent.llmCall] ++ tevs ++
          [AgentEvent.appendAssistant, AgentEvent.appendToolResults])
        (cats ++ [tools]) := by
  have hne : rm.tool_calls.isEmpty = false := by
    cases hcase : rm.tool_calls with
    | nil => exact absurd hcase hnz
    | cons a l => rfl
  simp [agentLoop, hne, hexec]

/-- Unfolding of the final turn of the loop: on a response without
tool calls the loop terminates at once, appending the response as an
assistant message, printing its text, and returning None. -/
theorem agentLoop_final_step (call_tool : CallTool) (tools : List String)
    (rm : ResponseMessage) (rest : List (Except String ResponseMessage))
    (hist : List HistMsg) (printed : List String) (evs : List AgentEvent)
    (cats : List (List String))
    (hfin : rm.tool_calls = []) :
    agentLoop call_tool tools (Except.ok rm :: rest) hist printed evs cats =
      ⟨hist ++ [HistMsg.assistant rm],
       printed ++ ["\n[AGENT] Final Answer:\n" ++ rm.content.getD "None"],
       none, QueryOutcome.ok,
       evs ++ [AgentEvent.llmCall, AgentEvent.appendAssistant],
       cats ++ [tools]⟩ := by
  have hne : rm.tool_calls.isEmpty = true := by
    rw [hfin]
    rfl
  simp [agentLoop, hne]

/-- Unfolding of a failing tool turn: the exception handler prints the
error and pops the last history entry. -/
theorem agentLoop_tool_error_step (call_tool : CallTool) (tools : List String)
    (rm : ResponseMessage) (rest : List (Except String ResponseMessage))
    (hist : List HistMsg) (printed : List String) (evs : List AgentEvent)
    (cats : List (List String)) (tevs : List AgentEvent) (e : String)
    (hnz : rm.tool_calls ≠ [])
    (hexec : execToolCalls call_tool 0 rm.tool_calls = (tevs, Except.error e)) :
    agentLoop call_tool tools (Except.ok rm :: rest) hist printed evs cats =
      ⟨hist.dropLast, printed ++ ["\n[ERROR] An error occurred: " ++ e], none,
       QueryOutcome.err e, evs ++ [AgentEvent.llmCall] ++ tevs, cats ++ [tools]⟩ := by
  have hne : rm.tool_calls.isEmpty = false := by
    cases hcase : rm.tool_calls with
    | nil => exact absurd hcase hnz
    | cons a l => rfl
  simp [agentLoop, hne, hexec]

/-- Every tools list recorded by the loop either was already recorded
or is the tools list the loop was given. -/
theorem agentLoop_cats_mem (call_tool : CallTool) (tools : List String) :
    ∀ (script : List (Except String ResponseMessage)) (hist : List HistMsg)
      (printed : List String) (evs : List AgentEvent) (cats : List (List String))
      (c : List String),
      c ∈ (agentLoop call_tool tools script hist printed evs cats).sentCatalogs →
      c ∈ cats ∨ c = tools := by
  intro script
  induction script with
  | nil =>
    intro hist printed evs cats c h
    simp only [agentLoop] at h
    exact Or.inl h
  | cons resp rest ih =>
    intro hist printed evs cats c h
    cases resp with
    | error e =>
      simp only [agentLoop, List.mem_append, List.mem_singleton] at h
      rcases h with h | h
      · exact Or.inl h
      · exact Or.inr h
    | ok rm =>
      by_cases hne : rm.tool_calls.isEmpty
      · rw [show agentLoop call_tool tools (Except.ok rm :: rest) hist printed evs cats =
            ⟨hist ++ [HistMsg.assistant rm],
             printed ++ ["\n[AGENT] Final Answer:\n" ++ rm.content.getD "None"],
             none, QueryOutcome.ok,
             evs ++ [AgentEvent.llmCall, AgentEvent.appendAssistant],
             cats ++ [tools]⟩ from by simp [agentLoop, hne]] at h
        simp only [List.mem_append, List.mem_singleton] at h
        rcases h with h | h
        · exact Or.inl h
        · exact Or.inr h
      · rcases hexec : execToolCalls call_tool 0 rm.tool_calls with ⟨tevs, r⟩
        cases r with
        | error e =>
          rw [show agentLoop call_tool tools (Except.ok rm :: rest) hist printed evs cats =
              ⟨hist.dropLast, printed ++ ["\n[ERROR] An error occurred: " ++ e], none,
               QueryOutcome.err e, evs ++ [AgentEvent.llmCall] ++ tevs,
               cats ++ [tools]⟩ from by simp [agentLoop, hne, hexec]] at h
          simp only [List.mem_append, List.mem_singleton] at h
          rcases h with h | h
          · exact Or.inl h
          · exact Or.inr h
        | ok entries =>
          rw [show agentLoop call_tool tools (Except.ok rm :: rest) hist printed evs cats =
              agentLoop call_tool tools rest
                (hist ++ [HistMsg.assistant rm, HistMsg.toolMsg entries]) printed
                (evs ++ [AgentEvent.llmCall] ++ tevs ++
                  [AgentEvent.appendAssistant, AgentEvent.appendToolResults])
                (cats ++ [tools]) from by simp [agentLoop, hne, hexec]] at h
          rcases ih _ _ _ _ _ h with h | h
          · simp only [List.mem_append, List.mem_singleton] at h
            rcases h with h | h
            · exact Or.inl h
            · exact Or.inr h
          · exact Or.inr h

/-- Every tools list sent during one process_user_query call is the
cached tools list it was given. -/
theorem process_user_query_cats (call_tool : CallTool) (tools : List String)
    (script : List (Except String ResponseMessage)) (hist : List HistMsg)
    (query : String) (c : List String)
    (h : c ∈ (process_user_query call_tool tools script hist query).sentCatalogs) :
    c = tools := by
  rcases agentLoop_cats_mem call_tool tools script
      (hist ++ [HistMsg.user query]) [] [] [] c h with h2 | h2
  · simp at h2
  · exact h2

/-- Running any number of queries never touches the session (hence
never re-fetches the catalog), never changes the cached tool
definitions, and only ever sends the cached tool definitions to the
LLM. -/
theorem runQueries_invariant (call_tool : CallTool) :
    ∀ (qs : List (List (Except String ResponseMessage) × String)) (st : AgentState),
      (runQueries call_tool st qs).1.session = st.session ∧
      (runQueries call_tool st qs).1.tool_definitions = st.tool_definitions ∧
      ∀ c ∈ (runQueries call_tool st qs).2, c = st.tool_definitions := by
  intro qs
  induction qs with
  | nil =>
    intro st
    refine ⟨rfl, rfl, ?_⟩
    intro c hc
    simp [runQueries] at hc
  | cons sq rest ih =>
    intro st
    rcases sq with ⟨script, q⟩
    have hstep : runQueries call_tool st ((script, q) :: rest) =
        ((runQueries call_tool
            { st with history :=
                (process_user_query call_tool st.tool_definitions script st.history q).history }
            rest).1,
         (process_user_query call_tool st.tool_definitions script st.history q).sentCatalogs ++
          (runQueries call_tool
            { st with history :=
                (process_user_query call_tool st.tool_definitions script st.history q).history }
            rest).2) := by
      simp [runQueries, processQueryState]
    obtain ⟨hs, ht, hc⟩ := ih
      { st with history :=
          (process_user_query call_tool st.tool_definitions script st.history q).history }
    refine ⟨?_, ?_, ?_⟩
    · rw [hstep]
      exact hs
    · rw [hstep]
      exact ht
    · intro c hmem
      rw [hstep] at hmem
      simp only [List.mem_append] at hmem
      rcases hmem with hmem | hmem
      · exact process_user_query_cats call_tool st.tool_definitions script st.history q c hmem
      · exact hc c hmem

/-- Both ends of a list append with a final singleton. -/
theorem dropLast_snoc {α : Type} (l : List α) (a : α) : (l ++ [a]).dropLast = l := by
  simp

/-- C1, counterexample: the claim says a turn with N tool-call
requests appends exactly N tool-role messages; in the run whose single
turn carries two requests, the code appends exactly one tool-role
message (holding both results), so the count is 1 and not 2. -/
theorem c1_counterexample :
    respTwoCalls.tool_calls.length = 2 ∧
    twoCallRun.outcome = QueryOutcome.ok ∧
    countToolRoleMsgs twoCallRun.history = 1 ∧
    countToolRoleMsgs twoCallRun.history ≠ respTwoCalls.tool_calls.length := by
  refine ⟨rfl, rfl, rfl, by decide⟩

/-- C1, amended: after the assistant tool-call message the loop
appends exactly one tool-role message, whose entry list corresponds
one-to-one and in order to the N requests of the turn, each entry
tagged with the id of its originating call and containing the
JSON-serialised result. -/
theorem c1_amended (call_tool : CallTool) (tools : List String)
    (rm : ResponseMessage) (rest : List (Except String ResponseMessage))
    (hist : List HistMsg) (printed : List String) (evs : List AgentEvent)
    (cats : List (List String)) (tevs : List AgentEvent)
    (entries : List ToolResultEntry)
    (hnz : rm.tool_calls ≠ [])
    (hexec : execToolCalls call_tool 0 rm.tool_calls = (tevs, Except.ok entries)) :
    agentLoop call_tool tools (Except.ok rm :: rest) hist printed evs cats =
      agentLoop call_tool tools rest
        (hist ++ [HistMsg.assistant rm, HistMsg.toolMsg entries]) printed
        (evs ++ [AgentEvent.llmCall] ++ tevs ++
          [AgentEvent.appendAssistant, AgentEvent.appendToolResults])
        (cats ++ [tools]) ∧
    List.Forall₂ (EntryMatches call_tool) rm.tool_calls entries ∧
    entries.map (fun e => e.tool_call_id) = rm.tool_calls.map (fun tc => tc.id) := by
  have hspec := execToolCalls_ok_spec call_tool rm.tool_calls 0 tevs entries hexec
  exact ⟨agentLoop_tool_step call_tool tools rm rest hist printed evs cats tevs entries hnz hexec,
    hspec.1, forall2_map_ids call_tool rm.tool_calls entries hspec.1⟩

/-- C1, witness: the amended theorem applied to the concrete two-call
turn. -/
theorem c1_amended_witness :
    twoCallEntries.map (fun e => e.tool_call_id) =
      respTwoCalls.tool_calls.map (fun tc => tc.id) :=
  (c1_amended scenarioProvider ["search_docs_schema"] respTwoCalls [] [] [] [] []
    twoCallEvents twoCallEntries (by decide) (by rfl)).2.2

/-- C2: the claim says any failure during a query restores the
pre-query transcript length by removing exactly the appended user
message.  The code pops only the last history entry, so when the
second LLM request fails after a completed tool turn, the user message
and the assistant tool-call message stay in the transcript: from a
pre-query transcript of length 1 the handled run ends at length 3.
The comment in the except block says it removes the last user message,
which the behaviour contradicts: recorded as a code bug. -/
theorem c2_code_bug :
    failAfterTurnRun.outcome = QueryOutcome.err "LLMRequestError" ∧
    failAfterTurnRun.history =
      [HistMsg.system system_prompt, HistMsg.user "What is integration X?",
       HistMsg.assistant respToolTurn] ∧
    failAfterTurnRun.history.length ≠
      ([HistMsg.system system_prompt] : List HistMsg).length := by
  refine ⟨rfl, rfl, by decide⟩

/-- C3, counterexample: the claim says call K+1 never starts before
the result of call K has been appended to the transcript.  In the
two-call turn the only event that appends tool results to the
transcript comes after both invocations: the start of call 1 occurs at
an earlier trace position than the transcript append of the results of
call 0. -/
theorem c3_counterexample :
    twoCallRun.events =
      [AgentEvent.llmCall,
       AgentEvent.toolStart 0 "id_a", AgentEvent.toolResult 0 "id_a",
       AgentEvent.toolStart 1 "id_b", AgentEvent.toolResult 1 "id_b",
       AgentEvent.appendAssistant, AgentEvent.appendToolResults,
       AgentEvent.llmCall, AgentEvent.appendAssistant] ∧
    twoCallRun.events.findIdx (isToolStartAt 1) <
      twoCallRun.events.findIdx isAppendToolResults ∧
    twoCallRun.events.findIdx isAppendToolResults < twoCallRun.events.length := by
  refine ⟨rfl, by decide, by decide⟩

/-- C3, amended: within one turn the tool calls are invoked strictly
sequentially in request order - the trace of a successful turn is the
strict alternation start 0, result 0, start 1, result 1, and so on, so
call K+1 never starts before the result of call K has been received -
and the transcript append of the results happens once, after all calls
of the turn have completed. -/
theorem c3_amended (call_tool : CallTool) (tools : List String)
    (rm : ResponseMessage) (rest : List (Except String ResponseMessage))
    (hist : List HistMsg) (printed : List String) (evs : List AgentEvent)
    (cats : List (List String)) (tevs : List AgentEvent)
    (entries : List ToolResultEntry)
    (hnz : rm.tool_calls ≠ [])
    (hexec : execToolCalls call_tool 0 rm.tool_calls = (tevs, Except.ok entries)) :
    tevs = seqEvents 0 rm.tool_calls ∧
    agentLoop call_tool tools (Except.ok rm :: rest) hist printed evs cats =
      agentLoop call_tool tools rest
        (hist ++ [HistMsg.assistant rm, HistMsg.toolMsg entries]) printed
        (evs ++ [AgentEvent.llmCall] ++ seqEvents 0 rm.tool_calls ++
          [AgentEvent.appendAssistant, AgentEvent.appendToolResults])
        (cats ++ [tools]) := by
  have hs := (execToolCalls_ok_spec call_tool rm.tool_calls 0 tevs entries hexec).2
  refine ⟨hs, ?_⟩
  rw [← hs]
  exact agentLoop_tool_step call_tool tools rm rest hist printed evs cats tevs entries hnz hexec

/-- C3, witness: the amended theorem applied to the concrete two-call
turn. -/
theorem c3_amended_witness :
    twoCallEvents = seqEvents 0 respTwoCalls.tool_calls :=
  (c3_amended scenarioProvider ["search_docs_schema"] respTwoCalls [] [] [] [] []
    twoCallEvents twoCallEntries (by decide) (by rfl)).1

/-- C4, counterexample: the claim says the loop returns exactly the
final text to the caller.  The Python function has no return
statement: in the concrete scenario the loop terminates normally and
the final text exists, yet the value returned to the caller is None,
not the text. -/
theorem c4_counterexample :
    scenarioRun.outcome = QueryOutcome.ok ∧
    respFinal.content = some "X is ..." ∧
    scenarioRun.retVal ≠ some "X is ..." := by
  refine ⟨rfl, rfl, by decide⟩

/-- C4, amended: whenever the loop reaches a response without
tool-call requests it terminates at once (ignoring any further
scripted responses), appends that response to the transcript as an
assistant message, prints its text as the final answer to the
operator, and returns no value (None) to the caller. -/
theorem c4_amended (call_tool : CallTool) (tools : List String)
    (rm : ResponseMessage) (rest : List (Except String ResponseMessage))
    (hist : List HistMsg) (printed : List String) (evs : List AgentEvent)
    (cats : List (List String))
    (hfin : rm.tool_calls = []) :
    (agentLoop call_tool tools (Except.ok rm :: rest) hist printed evs cats).outcome =
      QueryOutcome.ok ∧
    (agentLoop call_tool tools (Except.ok rm :: rest) hist printed evs cats).history =
      hist ++ [HistMsg.assistant rm] ∧
    (agentLoop call_tool tools (Except.ok rm :: rest) hist printed evs cats).printed =
      printed ++ ["\n[AGENT] Final Answer:\n" ++ rm.content.getD "None"] ∧
    (agentLoop call_tool tools (Except.ok rm :: rest) hist printed evs cats).retVal =
      none := by
  rw [agentLoop_final_step call_tool tools rm rest hist printed evs cats hfin]
  exact ⟨rfl, rfl, rfl, rfl⟩

/-- C4, witness: the amended theorem applied to the concrete final
response. -/
theorem c4_amended_witness :
    (agentLoop scenarioProvider ["search_docs_schema"] [Except.ok respFinal]
      [HistMsg.system system_prompt] [] [] []).retVal = none :=
  (c4_amended scenarioProvider ["search_docs_schema"] respFinal []
    [HistMsg.system system_prompt] [] [] [] rfl).2.2.2

/-- C5: in the scenario of one query, one single-call tool turn whose
provider result is the object binding result to doc text, and one
plain-text second response, the transcript grows by exactly four
messages: the user message, the assistant tool-call message, the one
tool-result message whose recorded content is the JSON text of the
unwrapped provider result, and the assistant message with the final
answer. -/
theorem c5_single_toolcall_scenario :
    scenarioRun.history =
      [HistMsg.system system_prompt,
       HistMsg.user "What is integration X?",
       HistMsg.assistant respToolTurn,
       HistMsg.toolMsg [⟨"call_1", "search_docs", "\x7b\"result\": \"doc text\"\x7d"⟩],
       HistMsg.assistant respFinal] ∧
    scenarioRun.history.length = ([HistMsg.system system_prompt] : List HistMsg).length + 4 ∧
    scenarioRun.outcome = QueryOutcome.ok := by
  refine ⟨rfl, rfl, rfl⟩

/-- C6: the claim says a malformed-arguments failure reverts the
transcript to its pre-query state.  That holds when the malformed call
is in the first turn of the query (for the first query, only the
system message remains, and the operator sees the error print), but
the code pops only the last history entry: when the malformed call
arrives after a completed tool turn, the pop removes the tool-result
message of the earlier turn and the transcript does not revert to the
pre-query state, contradicting the stated rollback intent: recorded as
a code bug. -/
theorem c6_code_bug :
    badFirstTurnRun.history = [HistMsg.system system_prompt] ∧
    badFirstTurnRun.printed = ["\n[ERROR] An error occurred: ArgumentParseError"] ∧
    badSecondTurnRun.outcome = QueryOutcome.err "ArgumentParseError" ∧
    badSecondTurnRun.history =
      [HistMsg.system system_prompt, HistMsg.user "q1", HistMsg.assistant respToolTurn] ∧
    badSecondTurnRun.history ≠ [HistMsg.system system_prompt] := by
  refine ⟨rfl, rfl, rfl, rfl, by decide⟩

/-- C7: starting from a fresh connection, initialisation invokes the
catalog fetch exactly once (the counter of session.tools moves from 0
to 1), and running any number of queries afterwards never touches the
session again, keeps the cached tool definitions unchanged, and sends
exactly that cached catalog with every LLM request of every query. -/
theorem c7_catalog_fetch_once (ts : List MCPTool) (call_tool : CallTool)
    (qs : List (List (Except String ResponseMessage) × String)) :
    (initAgent ⟨ts, 0⟩).session.toolsCalls = 1 ∧
    (runQueries call_tool (initAgent ⟨ts, 0⟩) qs).1.session.toolsCalls = 1 ∧
    (runQueries call_tool (initAgent ⟨ts, 0⟩) qs).1.tool_definitions =
      (initAgent ⟨ts, 0⟩).tool_definitions ∧
    ∀ c ∈ (runQueries call_tool (initAgent ⟨ts, 0⟩) qs).2,
      c = (initAgent ⟨ts, 0⟩).tool_definitions := by
  obtain ⟨hs, ht, hc⟩ := runQueries_invariant call_tool qs (initAgent ⟨ts, 0⟩)
  refine ⟨rfl, ?_, ht, hc⟩
  rw [hs]
  rfl

/-- C7, witness: the theorem applied to a one-tool server and a
one-query session. -/
theorem c7_catalog_fetch_once_witness :
    (runQueries scenarioProvider (initAgent ⟨[⟨"schema_a"⟩], 0⟩)
      [([Except.ok respFinal], "hi")]).1.session.toolsCalls = 1 ∧
    (["schema_a"] : List String) = (initAgent ⟨[⟨"schema_a"⟩], 0⟩).tool_definitions :=
  ⟨(c7_catalog_fetch_once [⟨"schema_a"⟩] scenarioProvider
      [([Except.ok respFinal], "hi")]).2.1,
   (c7_catalog_fetch_once [⟨"schema_a"⟩] scenarioProvider
      [([Except.ok respFinal], "hi")]).2.2.2 ["schema_a"] (by decide)⟩

/-- C8: one step of the interactive driver: a line whose lowercasing
equals exit or quit terminates the session; any other line whose
stripped form is non-blank is dispatched, stripped, as a query; any
other blank line is silently ignored and dispatches nothing. -/
theorem c8_input_dispatch (line : String) :
    ((pyLower line = "exit" ∨ pyLower line = "quit") →
      handle_input_line line = InputAction.exitSession) ∧
    (¬ (pyLower line = "exit" ∨ pyLower line = "quit") → pyStrip line ≠ "" →
      handle_input_line line = InputAction.dispatch (pyStrip line)) ∧
    (¬ (pyLower line = "exit" ∨ pyLower line = "quit") → pyStrip line = "" →
      handle_input_line line = InputAction.ignore) := by
  refine ⟨?_, ?_, ?_⟩
  · intro h
    unfold handle_input_line
    rw [if_pos h]
  · intro h1 h2
    unfold handle_input_line
    rw [if_neg h1, if_pos h2]
  · intro h1 h2
    unfold handle_input_line
    rw [if_neg h1, if_neg (fun hne => hne h2)]

/-- C8, witness: the theorem applied to an exit line in capitals, an
ordinary query line with surrounding spaces, and a blank line. -/
theorem c8_input_dispatch_witness :
    handle_input_line "QUIT" = InputAction.exitSession ∧
    handle_input_line " hello " = InputAction.dispatch "hello" ∧
    handle_input_line "   " = InputAction.ignore :=
  ⟨(c8_input_dispatch "QUIT").1 (Or.inr (by decide)),
   (c8_input_dispatch " hello ").2.1 (by decide) (by decide),
   (c8_input_dispatch "   ").2.2 (by decide) (by decide)⟩

/-- C9: on any exception the handler removes exactly one message, the
most recently appended one, whatever its role: an LLM failure with no
prior appends in the loop pops the last message of the current
history; after a completed tool-call turn a failure pops the
aggregated tool-result message of that turn, leaving the user message
and the assistant tool-call message in the transcript; and a failure
inside a tool turn (before its appends) likewise pops the last
message. -/
theorem c9_pop_most_recent (call_tool : CallTool) (tools : List String) (e : String)
    (hist : List HistMsg) (printed : List String) (evs : List AgentEvent)
    (cats : List (List String)) (rm : ResponseMessage) :
    (agentLoop call_tool tools [Except.error e] hist printed evs cats).history =
      hist.dropLast ∧
    (∀ tevs entries, rm.tool_calls ≠ [] →
      execToolCalls call_tool 0 rm.tool_calls = (tevs, Except.ok entries) →
      (agentLoop call_tool tools [Except.ok rm, Except.error e]
        hist printed evs cats).history = hist ++ [HistMsg.assistant rm]) ∧
    (∀ tevs e2, rm.tool_calls ≠ [] →
      execToolCalls call_tool 0 rm.tool_calls = (tevs, Except.error e2) →
      (agentLoop call_tool tools [Except.ok rm] hist printed evs cats).history =
        hist.dropLast) := by
  refine ⟨rfl, ?_, ?_⟩
  · intro tevs entries hnz hexec
    rw [agentLoop_tool_step call_tool tools rm [Except.error e]
      hist printed evs cats tevs entries hnz hexec]
    show (hist ++ [HistMsg.assistant rm, HistMsg.toolMsg entries]).dropLast = _
    rw [show hist ++ [HistMsg.assistant rm, HistMsg.toolMsg entries] =
        (hist ++ [HistMsg.assistant rm]) ++ [HistMsg.toolMsg entries] from by simp]
    exact dropLast_snoc (hist ++ [HistMsg.assistant rm]) (HistMsg.toolMsg entries)
  · intro tevs e2 hnz hexec
    rw [agentLoop_tool_error_step call_tool tools rm []
      hist printed evs cats tevs e2 hnz hexec]

/-- C9, witness: the theorem applied to the concrete run in which the
successful single-call turn is followed by a failing LLM request. -/
theorem c9_pop_most_recent_witness :
    (agentLoop scenarioProvider ["search_docs_schema"]
        [Except.ok respToolTurn, Except.error "LLMRequestError"]
        [HistMsg.system system_prompt, HistMsg.user "q"] [] [] []).history =
      [HistMsg.system system_prompt, HistMsg.user "q"] ++
        [HistMsg.assistant respToolTurn] :=
  (c9_pop_most_recent scenarioProvider ["search_docs_schema"] "LLMRequestError"
      [HistMsg.system system_prompt, HistMsg.user "q"] [] [] [] respToolTurn).2.1
    [AgentEvent.toolStart 0 "call_1", AgentEvent.toolResult 0 "call_1"]
    [⟨"call_1", "search_docs", "\x7b\"result\": \"doc text\"\x7d"⟩]
    (by decide) (by rfl)

/-- C10: a line holding exit surrounded by whitespace does not
terminate the session, because the exit comparison is made against the
unstripped lowercased line; the line is instead stripped and
dispatched as a query. -/
theorem c10_whitespace_exit :
    handle_input_line " exit " = InputAction.dispatch "exit" ∧
    handle_input_line " exit " ≠ InputAction.exitSession := by
  refine ⟨by decide, by decide⟩
